import Mathlib

/-
Verification of the MedGuardian vision pipeline against its specification.

The development shallowly embeds the decision logic of the Python sources:
  - hand_tracker.py   (HandTracker._track_hands and the track state update)
  - bottle_tracker.py (BottleTracker: template matching control flow,
                       _track_bottles, _detect_bottle_state, _handle_occlusions,
                       and the track state update)
  - vision_processor.py (VisionProcessor.detect_events, _is_hand_near_mouth)
  - app.py            (the dose-taken sequence rule in record_vision_event)

Modelling conventions:
  - Pixel coordinates and velocities are integers (they are produced by
    integer division, cv2.boundingRect and image moments in the source);
    bounding-box sizes are naturals.  Confidences and orientations are
    rationals standing in for Python floats: every comparison performed by
    the embedded code is exact at the values the program produces, so the
    rational model agrees with the float code on those comparisons.
  - np.sqrt(dx^2 + dy^2) < c (for c = 50 and c = 100) is embedded as
    dx^2 + dy^2 < c^2: on integer coordinates of pixel magnitude the
    correctly rounded float square root is strictly monotone, so the two
    conditions agree, and likewise for the strict minimum tracking in
    _handle_occlusions.
  - Wall-clock timestamps (datetime.now()) are omitted from event records:
    no claim depends on them.
  - Python dict keys that a code path never reads are omitted where noted
    in the individual definitions.
-/

namespace MedGuardian

/-- Squared Euclidean distance between two pixel points, embedding
`np.sqrt((x1-x2)**2 + (y1-y2)**2)` compared against a constant `c` as a
comparison of the squared distance against `c^2`. -/
def dist2 (p q : Int × Int) : Int :=
  (p.1 - q.1) ^ 2 + (p.2 - q.2) ^ 2

/-- A hand detection before the tracking step, as built by
`HandTracker._detect_with_dnn` / `_detect_with_contours` (hand_tracker.py):
the dict fields `center`, `radius`, `orientation`, `is_open`, `confidence`
(the `id` field is `None` at this point and `bounding_box` is never read by
the tracking step or by any consumer the claims mention, so it is omitted). -/
structure HandDet where
  center : Int × Int
  radius : Int
  orientation : Rat
  isOpen : Bool
  confidence : Rat
deriving DecidableEq, Repr

/-- A tracked hand, as returned by `HandTracker._track_hands`
(hand_tracker.py lines 246-284): the detection fields plus the assigned
`id` and the computed `velocity`. -/
structure Hand where
  id : Nat
  center : Int × Int
  radius : Int
  orientation : Rat
  isOpen : Bool
  confidence : Rat
  velocity : Int × Int
deriving DecidableEq, Repr

/-! ## HandTracker._track_hands (hand_tracker.py lines 246-284) -/

/-- The inner `for prev_hand in self.prev_hands: ... if dist < 50: ...
break` loop of `_track_hands`: return the first previous hand whose center
is within the 50px gate of `c`, or `none` when no previous hand matches. -/
def matchHand (c : Int × Int) : List Hand → Option Hand
  | [] => none
  | p :: ps => if dist2 c p.center < 2500 then some p else matchHand c ps

/-- `HandTracker._track_hands`, with the mutable `self.next_id` counter
threaded explicitly: each detection is matched against `prev` by
`matchHand`; a match inherits the previous hand's id and gets the centroid
displacement as velocity; an unmatched detection gets the counter value as
a fresh id (incrementing the counter) and velocity (0, 0). Returns the
tracked hands and the final counter. -/
def trackHandsAux (prev : List Hand) : List HandDet → Nat → List Hand × Nat
  | [], k => ([], k)
  | d :: ds, k =>
    match matchHand d.center prev with
    | some p =>
      let h : Hand :=
        { id := p.id, center := d.center, radius := d.radius,
          orientation := d.orientation, isOpen := d.isOpen,
          confidence := d.confidence,
          velocity := (d.center.1 - p.center.1, d.center.2 - p.center.2) }
      let r := trackHandsAux prev ds k
      (h :: r.1, r.2)
    | none =>
      let h : Hand :=
        { id := k, center := d.center, radius := d.radius,
          orientation := d.orientation, isOpen := d.isOpen,
          confidence := d.confidence, velocity := (0, 0) }
      let r := trackHandsAux prev ds (k + 1)
      (h :: r.1, r.2)

/-- The mutable state of a `HandTracker` instance: `self.prev_hands` and
`self.next_id` (hand_tracker.py lines 6-8).  The detection model handles
(`self.net`, `self.fallback_mode`) only select the detection strategy,
which the tracking claims take as an input, so they are not part of the
tracked state. -/
structure HState where
  prevHands : List Hand
  nextId : Nat
deriving DecidableEq, Repr

/-- `HandTracker.__init__`: `prev_hands = []`, `next_id = 0`. -/
def initHState : HState := { prevHands := [], nextId := 0 }

/-- One call of `HandTracker.track` with the detection stage factored out
as the `dets` argument: run `_track_hands` and store the result in
`self.prev_hands` (hand_tracker.py lines 42-45). -/
def handTrackStep (st : HState) (dets : List HandDet) : HState × List Hand :=
  let r := trackHandsAux st.prevHands dets st.nextId
  ({ prevHands := r.1, nextId := r.2 }, r.1)

/-- The tracker state entering frame `k` of a run that feeds the per-frame
detection lists `frames` to a fresh `HandTracker` (frames beyond the end of
the list carry no detections). -/
def handStateAt (frames : List (List HandDet)) : Nat → HState
  | 0 => initHState
  | k + 1 => (handTrackStep (handStateAt frames k) (frames.getD k [])).1

/-- The output of frame `k` of the run described in `handStateAt`. -/
def handOutputAt (frames : List (List HandDet)) (k : Nat) : List Hand :=
  (handTrackStep (handStateAt frames k) (frames.getD k [])).2

/-! ## VisionProcessor (vision_processor.py) -/

/-- An event record as produced by `VisionProcessor.detect_events`
(vision_processor.py lines 42-81): `type` and `confidence` (the
`datetime.now()` timestamp is omitted, no claim reads it). -/
structure Event where
  type : String
  confidence : Rat
deriving DecidableEq, Repr

/-- The NameError raised by `VisionProcessor._is_hand_near_mouth`: the
name `frame` on line 103 of vision_processor.py is neither a parameter of
the method nor a module-level global, so evaluating `frame.shape[0]`
raises `NameError`. -/
def frameNameError : String := "NameError: name frame is not defined"

/-- `VisionProcessor._is_hand_near_mouth` (vision_processor.py lines
83-106).  The method computes an unused `mouth_y`, then evaluates
`vy < -2 and cy < frame.shape[0] * 0.6`.  Python's `and` short-circuits:
when `vy >= -2` the right conjunct is never evaluated and the method falls
through to `return False`; when `vy < -2` the right conjunct evaluates the
unbound name `frame` and raises NameError, modelled as `Except.error`. -/
def handNearMouth (h : Hand) : Except String Bool :=
  if h.velocity.2 < -2 then Except.error frameNameError else Except.ok false

/-- The hand loop of `VisionProcessor.detect_events` (lines 56-63): for
each hand, append a `hand_to_mouth` event when `_is_hand_near_mouth`
returns True; a NameError raised there propagates out of the loop. -/
def handEvents : List Hand → Except String (List Event)
  | [] => Except.ok []
  | h :: hs =>
    match handNearMouth h with
    | Except.error e => Except.error e
    | Except.ok b =>
      match handEvents hs with
      | Except.error e => Except.error e
      | Except.ok rest =>
        Except.ok (if b then { type := "hand_to_mouth", confidence := h.confidence } :: rest else rest)

/-! ## BottleTracker (bottle_tracker.py) -/

/-- A candidate bottle region as produced by
`BottleTracker._find_bottle_regions` (bottle_tracker.py lines 36-66):
`bounding_box = (x, y, w, h)` together with the pixel count of the ROI
slice `frame[y:y+h, x:x+w]` that `_match_bottle_template` reads (`contour`,
`aspect_ratio` and `area` are never read after region filtering and are
omitted).  The geometric detection itself is imaging-library work outside
the embedding; regions are inputs. -/
structure Region where
  x : Int
  y : Int
  w : Nat
  h : Nat
  roiSize : Nat
deriving DecidableEq, Repr

/-- A template of the bottle template library.  Its pixel image is
abstracted to the similarity score that `cv2.resize` +
`BottleTracker._calculate_ssd` would assign to each region; nothing more
of a template is read by `_match_bottle_template`.  The library itself is
`initializeBottleTemplates`, which the source initializes empty. -/
structure Template where
  score : Region → Rat

/-- `BottleTracker._initialize_bottle_templates` (bottle_tracker.py lines
10-14): returns the empty library. -/
def initializeBottleTemplates : List Template := []

/-- A detected bottle dict as built by `BottleTracker._match_bottle_template`
(bottle_tracker.py lines 93-100): `position`, `size`, `confidence` and
`state` (the `template` field, the matched library entry, is never read by
any later code path and is omitted). -/
structure BottleDet where
  position : Int × Int
  size : Nat × Nat
  confidence : Rat
  state : String
deriving DecidableEq, Repr

/-- A tracked bottle dict as produced by `BottleTracker._track_bottles` and
`_handle_occlusions`: the detection fields plus `id`, `velocity`,
`state_changed`, and the occlusion keys.  In Python `attached_to_hand` and
`occlusion_handled` are absent until `_handle_occlusions` sets them; the
absent key is modelled as `none` / `false`. -/
structure Bottle where
  position : Int × Int
  size : Nat × Nat
  confidence : Rat
  state : String
  id : Int
  velocity : Int × Int
  stateChanged : Bool
  attachedToHand : Option Nat
  occlusionHandled : Bool
deriving DecidableEq, Repr

/-- The `best_score` fold of `_match_bottle_template` (bottle_tracker.py
lines 78-91): starting from 0, keep the larger of the running best and each
template's score (`if score > best_score` is a strict comparison). -/
def bestScore (tpls : List Template) (r : Region) : Rat :=
  tpls.foldl (fun b t => if t.score r > b then t.score r else b) 0

/-- `BottleTracker._match_bottle_template` (bottle_tracker.py lines
68-102): `None` when the ROI is empty; otherwise fold the library for the
best score and accept only when it exceeds 0.7, building the detection dict
with `state = 'unknown'`. -/
def matchBottleTemplate (tpls : List Template) (r : Region) : Option BottleDet :=
  if r.roiSize = 0 then none
  else if bestScore tpls r > mkRat 7 10 then
    some { position := (r.x, r.y), size := (r.w, r.h),
           confidence := bestScore tpls r, state := "unknown" }
  else none

/-- `int(0.2 * h)` on a nonnegative pixel height (bottle_tracker.py line
179): for heights of pixel magnitude the float product `0.2 * h` truncates
to `h / 5` rounded down, embedded as natural division. -/
def capHeight (h : Nat) : Nat := h / 5

/-- `BottleTracker._detect_bottle_state` (bottle_tracker.py lines 171-197):
walk the hands; a hand whose center lies strictly inside the cap region
(top 20% of the bounding box) inflated by the hand's radius, and whose
orientation lies strictly inside one of the three bands, yields `'open'`;
a hand failing either test is skipped; no qualifying hand yields
`'closed'`. -/
def detectBottleState (pos : Int × Int) (size : Nat × Nat) : List Hand → String
  | [] => "closed"
  | hand :: hs =>
    let capTop := pos.2
    let capBottom := pos.2 + (capHeight size.2 : Int)
    let capLeft := pos.1
    let capRight := pos.1 + (size.1 : Int)
    if capLeft - hand.radius < hand.center.1 ∧ hand.center.1 < capRight + hand.radius ∧
        capTop - hand.radius < hand.center.2 ∧ hand.center.2 < capBottom + hand.radius then
      if (-45 < hand.orientation ∧ hand.orientation < 45) ∨
          (135 < hand.orientation ∧ hand.orientation < 225) ∨
          (-135 < hand.orientation ∧ hand.orientation < -45) then "open"
      else detectBottleState pos size hs
    else detectBottleState pos size hs

/-- The inner matching loop of `BottleTracker._track_bottles`
(bottle_tracker.py lines 138-156): first previous bottle whose position is
within the 50px gate, or `none`. -/
def matchPrevBottle (c : Int × Int) : List Bottle → Option Bottle
  | [] => none
  | p :: ps => if dist2 c p.position < 2500 then some p else matchPrevBottle c ps

/-- `BottleTracker._track_bottles` without its final `_handle_occlusions`
call (bottle_tracker.py lines 130-164).  Fresh bottle ids come from
`id(bottle)`, the CPython object identity of the detection dict; the
embedding threads an allocation index `k` (one per detection dict created)
into an ambient id `supply`, so `supply` plays the role of the Python heap:
CPython guarantees ids distinct only among simultaneously existing objects,
nothing more.  A matched bottle inherits the previous record's id (the
`.get('id', id(bottle))` default never fires: every tracked record carries
an id); an unmatched bottle uses its own object id `supply k`. -/
def trackBottlesAux (prev : List Bottle) (hands : List Hand) (supply : Nat → Int) :
    List BottleDet → Nat → List Bottle × Nat
  | [], k => ([], k)
  | d :: ds, k =>
    let st := detectBottleState d.position d.size hands
    match matchPrevBottle d.position prev with
    | some p =>
      let b : Bottle :=
        { position := d.position, size := d.size, confidence := d.confidence,
          state := st, id := p.id,
          velocity := (d.position.1 - p.position.1, d.position.2 - p.position.2),
          stateChanged := decide (st ≠ p.state),
          attachedToHand := none, occlusionHandled := false }
      let r := trackBottlesAux prev hands supply ds (k + 1)
      (b :: r.1, r.2)
    | none =>
      let b : Bottle :=
        { position := d.position, size := d.size, confidence := d.confidence,
          state := st, id := supply k, velocity := (0, 0),
          stateChanged := false,
          attachedToHand := none, occlusionHandled := false }
      let r := trackBottlesAux prev hands supply ds (k + 1)
      (b :: r.1, r.2)

/-- The nearest-hand scan of `BottleTracker._handle_occlusions`
(bottle_tracker.py lines 204-214): `min_dist` starts at infinity and is
updated on strictly smaller distances, so the first hand always enters and
ties keep the earlier hand; the accumulator holds the current nearest hand
with its squared distance. -/
def nearestHandAux (pos : Int × Int) (acc : Option (Hand × Int)) : List Hand → Option (Hand × Int)
  | [] => acc
  | h :: hs =>
    match acc with
    | none => nearestHandAux pos (some (h, dist2 pos h.center)) hs
    | some a =>
      if dist2 pos h.center < a.2 then nearestHandAux pos (some (h, dist2 pos h.center)) hs
      else nearestHandAux pos (some a) hs

/-- Nearest hand to `pos` with its squared distance; `none` iff there are
no hands (matching `nearest_hand = None`). -/
def nearestHand (pos : Int × Int) (hands : List Hand) : Option (Hand × Int) :=
  nearestHandAux pos none hands

/-- The per-bottle body of `BottleTracker._handle_occlusions`
(bottle_tracker.py lines 199-226): a bottle with confidence below 0.5 whose
nearest hand exists and is within 100px is repositioned to that hand's
center offset by half the bottle's size (`size // 2`, integer division) and
marked attached / occlusion-handled; every other bottle is unchanged. -/
def occStep (hands : List Hand) (b : Bottle) : Bottle :=
  if b.confidence < mkRat 1 2 then
    match nearestHand b.position hands with
    | some a =>
      if a.2 < 10000 then
        { b with position := (a.1.center.1 + (b.size.1 / 2 : Nat), a.1.center.2 + (b.size.2 / 2 : Nat)),
                 attachedToHand := some a.1.id, occlusionHandled := true }
      else b
    | none => b
  else b

/-- `BottleTracker._handle_occlusions` applied to the whole list: the
Python loop mutates each bottle dict independently and returns the list. -/
def handleOcclusions (hands : List Hand) (bs : List Bottle) : List Bottle :=
  bs.map (occStep hands)

/-- The mutable state of a `BottleTracker` instance (bottle_tracker.py
lines 5-8): `self.bottles` and `self.prev_bottles`, plus the model-level
allocation index into the object-id supply (counting detection dicts
created so far).  `BottleTracker.__init__` defines no other attribute: in
particular no fallback, degradation or error flag of any kind. -/
structure BTState where
  bottles : List Bottle
  prevBottles : List Bottle
  allocCount : Nat
deriving Repr

/-- `BottleTracker.__init__`: both lists empty, no dicts allocated yet. -/
def initBTState : BTState := { bottles := [], prevBottles := [], allocCount := 0 }

/-- `BottleTracker.track` (bottle_tracker.py lines 16-34) with the
detection stage factored out as the `dets` argument: run `_track_bottles`
(matching against `self.prev_bottles`), then `_handle_occlusions`, then
perform the state update exactly as written in the source —
`self.prev_bottles = self.bottles` BEFORE `self.bottles = tracked_bottles`,
so the stored `prev_bottles` is the output of the frame before the
previous one, not of the previous frame. -/
def bottleFrame (supply : Nat → Int) (st : BTState) (dets : List BottleDet)
    (hands : List Hand) : BTState × List Bottle :=
  let r := trackBottlesAux st.prevBottles hands supply dets st.allocCount
  let tracked := handleOcclusions hands r.1
  ({ bottles := tracked, prevBottles := st.bottles, allocCount := r.2 }, tracked)

/-- The full `BottleTracker.track`: find regions (taken as input), match
each against the template library, then track (bottle_tracker.py lines
16-34). -/
def bottleTrackStep (tpls : List Template) (supply : Nat → Int) (st : BTState)
    (regions : List Region) (hands : List Hand) : BTState × List Bottle :=
  bottleFrame supply st (regions.filterMap (matchBottleTemplate tpls)) hands

/-- Run a fresh `BottleTracker` over a list of frames, each frame given by
its detected bottles and tracked hands; returns the per-frame outputs. -/
def bottleRun (supply : Nat → Int) : BTState → List (List BottleDet × List Hand) → List (List Bottle)
  | _, [] => []
  | st, f :: fs =>
    let r := bottleFrame supply st f.1 f.2
    r.2 :: bottleRun supply r.1 fs

/-! ## detect_events bottle loop and the app.py dose rule -/

/-- The bottle loop of `VisionProcessor.detect_events` (vision_processor.py
lines 66-79): one `bottle_open` / `bottle_close` event per bottle whose
`state_changed` flag is set, keyed on the new state. -/
def bottleEvents : List Bottle → List Event
  | [] => []
  | b :: bs =>
    if b.stateChanged then
      if b.state = "open" then
        { type := "bottle_open", confidence := b.confidence } :: bottleEvents bs
      else if b.state = "closed" then
        { type := "bottle_close", confidence := b.confidence } :: bottleEvents bs
      else bottleEvents bs
    else bottleEvents bs

/-- `VisionProcessor.detect_events` (vision_processor.py lines 42-81):
hand events first (a NameError there aborts the whole call), then the
bottle events. -/
def detectEvents (hands : List Hand) (bottles : List Bottle) : Except String (List Event) :=
  match handEvents hands with
  | Except.error e => Except.error e
  | Except.ok hs => Except.ok (hs ++ bottleEvents bottles)

/-- The dose-taken rule of `record_vision_event` (app.py lines 322-347),
as a function of the session's prior event-type history and the incoming
event type: on a `bottle_close` the code queries the full event list of the
session (which, the incoming event having been added to the SQLAlchemy
session, includes the incoming event) and fires iff SOME recorded event is
a `bottle_open` and SOME recorded event is a `hand_to_mouth` — pure
membership, no use of the order or timestamps. -/
def doseRuleFires (prior : List String) (incoming : String) : Bool :=
  if incoming = "bottle_close" then
    let evs := prior ++ [incoming]
    evs.any (fun e => e = "bottle_open") && evs.any (fun e => e = "hand_to_mouth")
  else false

/-- Modelled from the spec: the ordered sequence test the specification
states for the dose rule — the event history contains a `bottle_open`
followed at some later point by a `hand_to_mouth` followed at some later
point by a `bottle_close` (order-sensitive, not necessarily contiguous).
`containsSeq evs pat` scans `evs` left to right for the members of `pat`
in order. -/
def containsSeq : List String → List String → Bool
  | _, [] => true
  | [], _ :: _ => false
  | e :: es, p :: ps => if e = p then containsSeq es ps else containsSeq es (p :: ps)

/-! ## Concrete inputs used by the evaluation theorems and witnesses -/

/-- An injective object-id supply (fresh CPython addresses). -/
def natSupply : Nat → Int := fun n => (n : Int)

/-- An object-id supply that hands out the same address twice; legitimate
for a run in which at most one detection dict is reachable at a time,
since CPython guarantees `id` values distinct only among simultaneously
existing objects. -/
def supply7 : Nat → Int := fun _ => 7

/-- A stationary high-confidence bottle detection at (100, 100). -/
def d0 : BottleDet :=
  { position := (100, 100), size := (20, 60), confidence := mkRat 9 10, state := "unknown" }

/-- A bottle detection at the origin. -/
def dA : BottleDet :=
  { position := (0, 0), size := (20, 60), confidence := mkRat 9 10, state := "unknown" }

/-- A bottle detection 500px away from `dA` in each coordinate. -/
def dB : BottleDet :=
  { position := (500, 500), size := (20, 60), confidence := mkRat 9 10, state := "unknown" }

/-- A hand overlapping `d0`'s cap region at orientation 0 (inside the
first twist band). -/
def hcap : Hand :=
  { id := 0, center := (110, 106), radius := 5, orientation := 0, isOpen := false,
    confidence := 1, velocity := (0, 0) }

/-- A hand moving upward past the `-2` velocity threshold. -/
def hUp : Hand :=
  { id := 0, center := (100, 100), radius := 10, orientation := 0, isOpen := false,
    confidence := 1, velocity := (0, -3) }

/-- A hand with zero vertical velocity. -/
def hFlat : Hand :=
  { id := 1, center := (100, 100), radius := 10, orientation := 0, isOpen := false,
    confidence := 1, velocity := (0, 0) }

/-! ## C1: the dose-taken rule ignores event order -/

/-- C1: the claim says the dose-taken rule fires on a `bottle_close` iff
the session history contains `bottle_open`, then `hand_to_mouth`, then
that `bottle_close` in order, and in particular that the stream
`[hand_to_mouth, bottle_open, bottle_close]` does not trigger it.  The
code checks only membership: on the stream
`[hand_to_mouth, bottle_open, bottle_close]` the rule fires even though
the ordered-sequence test of the specification fails on that history (the
rule does also fire on the correctly ordered stream). -/
theorem doseRule_fires_on_reordered_stream :
    doseRuleFires ["hand_to_mouth", "bottle_open"] "bottle_close" = true ∧
    containsSeq ["hand_to_mouth", "bottle_open", "bottle_close"]
      ["bottle_open", "hand_to_mouth", "bottle_close"] = false ∧
    doseRuleFires ["bottle_open", "hand_to_mouth"] "bottle_close" = true ∧
    containsSeq ["bottle_open", "hand_to_mouth", "bottle_close"]
      ["bottle_open", "hand_to_mouth", "bottle_close"] = true := by
  decide

/-! ## C2: the hand-to-mouth check raises instead of testing the frame -/

/-- `handEvents` aborts with the NameError as soon as some hand moves
upward past the threshold (every such hand raises the same error, so the
first one encountered determines the result). -/
theorem handEvents_error_of_upward (hands : List Hand)
    (h : ∃ g ∈ hands, g.velocity.2 < -2) :
    handEvents hands = Except.error frameNameError := by
  induction hands with
  | nil => simp at h
  | cons a hs ih =>
    obtain ⟨g, hg, hgv⟩ := h
    by_cases ha : a.velocity.2 < -2
    · simp only [handEvents, handNearMouth, if_pos ha]
    · rcases List.mem_cons.mp hg with rfl | hg2
      · exact absurd hgv ha
      · simp only [handEvents, handNearMouth, if_neg ha, ih ⟨g, hg2, hgv⟩]

/-- `handEvents` on hands none of which passes the velocity test returns
normally and produces no event at all. -/
theorem handEvents_ok_of_no_upward (hands : List Hand)
    (h : ∀ g ∈ hands, ¬g.velocity.2 < -2) :
    handEvents hands = Except.ok [] := by
  induction hands with
  | nil => rfl
  | cons a hs ih =>
    have ha : ¬a.velocity.2 < -2 := h a (List.mem_cons_self a hs)
    simp [handEvents, handNearMouth, if_neg ha,
      ih fun g hg => h g (List.mem_cons_of_mem a hg)]

/-- C2: the claim says `detect_events` emits `hand_to_mouth` exactly when
a hand's vertical velocity is below -2 and its center is in the upper 60%
of the frame, returning normally on every hand.  In the code the name
`frame` is not in scope in `_is_hand_near_mouth`, so: whenever some hand
has vertical velocity below -2, `detect_events` raises NameError instead
of emitting anything; and when no hand does, the short-circuited
conjunction returns False for every hand, so no `hand_to_mouth` event is
ever emitted and the upper-60% test is never evaluated. -/
theorem handToMouth_raises_or_never_fires (hands : List Hand) (bottles : List Bottle) :
    ((∃ g ∈ hands, g.velocity.2 < -2) →
      detectEvents hands bottles = Except.error frameNameError) ∧
    ((∀ g ∈ hands, ¬g.velocity.2 < -2) →
      detectEvents hands bottles = Except.ok (bottleEvents bottles)) := by
  constructor
  · intro h
    simp only [detectEvents, handEvents_error_of_upward hands h]
  · intro h
    simp only [detectEvents, handEvents_ok_of_no_upward hands h, List.nil_append]

/-- C2 witness: on a single upward-moving hand the pipeline raises the
NameError; on a single stationary hand it returns normally with no
event. -/
theorem handToMouth_raises_or_never_fires_witness :
    detectEvents [hUp] [] = Except.error frameNameError ∧
    detectEvents [hFlat] [] = Except.ok [] :=
  ⟨(handToMouth_raises_or_never_fires [hUp] []).1
      ⟨hUp, List.mem_singleton.mpr rfl, by decide⟩,
    (handToMouth_raises_or_never_fires [hFlat] []).2
      (by intro g hg; rw [List.mem_singleton.mp hg]; decide)⟩

/-! ## C4: bottle identity is matched two frames back, not one -/

/-- C4: the claim says a bottle moving less than 50px between two
consecutive frames keeps its id.  `BottleTracker.track` stores
`self.prev_bottles = self.bottles` before `self.bottles = tracked_bottles`,
so frame k is matched against the output of frame k-2.  Feeding the same
stationary detection for four frames to a fresh tracker (with an injective
object-id supply 0, 1, 2, ...), the assigned id alternates 0, 1, 0, 1: in
particular frame 2's id differs from frame 1's even though the bottle did
not move at all. -/
theorem bottleId_not_inherited_from_previous_frame :
    (bottleRun natSupply initBTState
        [([d0], []), ([d0], []), ([d0], []), ([d0], [])]).map
      (fun l => l.map (fun b => b.id)) = [[0], [1], [0], [1]] := by
  decide

/-! ## C5: state_changed fires on two consecutive frames after a transition -/

/-- C5: the claim says a closed-to-open transition on frame N reports
`state_changed = true` on frame N and `false` on frame N+1 when the state
is unchanged.  Because matching lags one frame (see C4), frame N+1 is
compared against the frame N-1 record, which is still 'closed': with a
stationary bottle seen on frames 1-4 and a hand gripping the cap from
frame 3 on, the code reports (state, state_changed) as closed/false,
closed/false, open/true, open/TRUE — the flag fires again on frame 4. -/
theorem stateChanged_fires_twice_after_transition :
    (bottleRun natSupply initBTState
        [([d0], []), ([d0], []), ([d0], [hcap]), ([d0], [hcap])]).map
      (fun l => l.map (fun b => (b.state, b.stateChanged))) =
      [[("closed", false)], [("closed", false)], [("open", true)], [("open", true)]] := by
  decide

/-! ## C7: bottle ids are object identities and can recur after retirement -/

/-- C7 counterexample: the claim says a retired id is never reassigned to
a new object, for the bottle tracker as well.  Bottle ids are
`id(bottle)`, the CPython address of the detection dict, which is unique
only among simultaneously existing objects.  In this run the frame-1
bottle's track is retired (frames 2 and 3 detect nothing, and after frame
3's state shift the frame-1 dict is unreachable), so the heap may hand the
frame-4 detection the same address: under the supply `supply7`, consistent
with that guarantee, the new bottle 500px away receives the retired id 7
again. -/
theorem retiredBottleId_reassigned :
    (bottleRun supply7 initBTState
        [([dA], []), ([], []), ([], []), ([dB], [])]).map
      (fun l => l.map (fun b => (b.id, b.position))) =
      [[(7, (0, 0))], [], [], [(7, (500, 500))]] := by
  decide

/-! ## C3 and C10: the tracker with its as-initialized empty library -/

/-- With the empty template library the matcher rejects every region: the
best-score fold over no templates is 0, below the 0.7 acceptance
threshold (and an empty ROI is rejected outright). -/
theorem matchBottleTemplate_empty_library (r : Region) :
    matchBottleTemplate initializeBottleTemplates r = none := by
  unfold matchBottleTemplate
  have hb : ¬bestScore initializeBottleTemplates r > mkRat 7 10 := by
    simp only [bestScore, initializeBottleTemplates, List.foldl_nil]
    decide
  by_cases h0 : r.roiSize = 0
  · simp [h0]
  · simp [h0, hb]

/-- Helper: filterMap of a function that is constantly `none`. -/
theorem filterMap_none_eq_nil {α β : Type} (f : α → Option β) (l : List α)
    (h : ∀ a, f a = none) : l.filterMap f = [] := by
  induction l with
  | nil => rfl
  | cons a as ih => simp [List.filterMap_cons, h a, ih]

/-- C3: with the template library as `_initialize_bottle_templates` builds
it (empty), every region is rejected, `BottleTracker.track` returns the
empty list from every state, on every frame and hand list, and the bottle
loop of `detect_events` consequently produces no `bottle_open` or
`bottle_close` event. -/
theorem emptyLibrary_track_returns_no_bottles (supply : Nat → Int) (st : BTState)
    (regions : List Region) (hands : List Hand) :
    (∀ r, matchBottleTemplate initializeBottleTemplates r = none) ∧
    (bottleTrackStep initializeBottleTemplates supply st regions hands).2 = [] ∧
    bottleEvents (bottleTrackStep initializeBottleTemplates supply st regions hands).2 = [] := by
  have hd : regions.filterMap (matchBottleTemplate initializeBottleTemplates) = [] :=
    filterMap_none_eq_nil _ regions matchBottleTemplate_empty_library
  have h2 : (bottleTrackStep initializeBottleTemplates supply st regions hands).2 = [] := by
    simp [bottleTrackStep, bottleFrame, hd, trackBottlesAux, handleOcclusions]
  exact ⟨matchBottleTemplate_empty_library, h2, by rw [h2]; rfl⟩

/-- C10: the claim says the tracker reports the empty-library degradation
explicitly, as empty detections accompanied by a flagged fallback mode.
`BottleTracker.__init__` defines no fallback, degradation or error
attribute at all (its whole state is `bottles`, `prev_bottles` and the
template list) and `track` raises nothing: with the as-initialized empty
library it silently returns the empty list, and the post-call state
records nothing but the routine shift of `bottles` into `prev_bottles` —
there is no flag for a caller to observe. -/
theorem emptyLibrary_silent_empty_no_flag (supply : Nat → Int) (st : BTState)
    (regions : List Region) (hands : List Hand) :
    (bottleTrackStep initializeBottleTemplates supply st regions hands).2 = [] ∧
    (bottleTrackStep initializeBottleTemplates supply st regions hands).1 =
      { bottles := [], prevBottles := st.bottles, allocCount := st.allocCount } := by
  have hd : regions.filterMap (matchBottleTemplate initializeBottleTemplates) = [] :=
    filterMap_none_eq_nil _ regions matchBottleTemplate_empty_library
  constructor
  · simp [bottleTrackStep, bottleFrame, hd, trackBottlesAux, handleOcclusions]
  · simp [bottleTrackStep, bottleFrame, hd, trackBottlesAux, handleOcclusions]

/-! ## C8: the open-state predicate -/

/-- The cap-region overlap test of the claim: the hand's center lies
strictly inside the top-20% cap region of the bottle's bounding box,
inflated on every side by the hand's radius. -/
def capOverlap (pos : Int × Int) (size : Nat × Nat) (h : Hand) : Prop :=
  pos.1 - h.radius < h.center.1 ∧ h.center.1 < pos.1 + (size.1 : Int) + h.radius ∧
  pos.2 - h.radius < h.center.2 ∧ h.center.2 < pos.2 + (capHeight size.2 : Int) + h.radius

/-- The three orientation bands of the claim: (-45, 45), (135, 225) and
(-135, -45). -/
def twistBand (o : Rat) : Prop :=
  (-45 < o ∧ o < 45) ∨ (135 < o ∧ o < 225) ∨ (-135 < o ∧ o < -45)

instance (pos : Int × Int) (size : Nat × Nat) (h : Hand) : Decidable (capOverlap pos size h) := by
  unfold capOverlap; infer_instance

instance (o : Rat) : Decidable (twistBand o) := by
  unfold twistBand; infer_instance

/-- C8: `_detect_bottle_state` returns 'open' exactly when some hand
overlaps the inflated cap region with an orientation inside one of the
three bands, and otherwise returns 'closed'. -/
theorem detectBottleState_open_iff (pos : Int × Int) (size : Nat × Nat) (hands : List Hand) :
    (detectBottleState pos size hands = "open" ∨ detectBottleState pos size hands = "closed") ∧
    (detectBottleState pos size hands = "open" ↔
      ∃ h ∈ hands, capOverlap pos size h ∧ twistBand h.orientation) := by
  induction hands with
  | nil =>
    refine ⟨Or.inr rfl, ?_⟩
    simp only [detectBottleState, List.not_mem_nil, false_and, exists_false, iff_false]
    decide
  | cons a hs ih =>
    by_cases hreg : pos.1 - a.radius < a.center.1 ∧ a.center.1 < pos.1 + (size.1 : Int) + a.radius ∧
        pos.2 - a.radius < a.center.2 ∧ a.center.2 < pos.2 + (capHeight size.2 : Int) + a.radius
    · by_cases hband : (-45 < a.orientation ∧ a.orientation < 45) ∨
          (135 < a.orientation ∧ a.orientation < 225) ∨
          (-135 < a.orientation ∧ a.orientation < -45)
      · have hval : detectBottleState pos size (a :: hs) = "open" := by
          simp only [detectBottleState]
          rw [if_pos hreg, if_pos hband]
        refine ⟨Or.inl hval, ?_⟩
        simp only [hval, true_iff]
        exact ⟨a, List.mem_cons_self a hs, hreg, hband⟩
      · have hval : detectBottleState pos size (a :: hs) = detectBottleState pos size hs := by
          simp only [detectBottleState]
          rw [if_pos hreg, if_neg hband]
        refine ⟨hval ▸ ih.1, ?_⟩
        rw [hval, ih.2]
        constructor
        · rintro ⟨g, hg, hov, hb⟩
          exact ⟨g, List.mem_cons_of_mem a hg, hov, hb⟩
        · rintro ⟨g, hg, hov, hb⟩
          rcases List.mem_cons.mp hg with rfl | hg2
          · exact absurd hb hband
          · exact ⟨g, hg2, hov, hb⟩
    · have hval : detectBottleState pos size (a :: hs) = detectBottleState pos size hs := by
        simp only [detectBottleState]
        rw [if_neg hreg]
      refine ⟨hval ▸ ih.1, ?_⟩
      rw [hval, ih.2]
      constructor
      · rintro ⟨g, hg, hov, hb⟩
        exact ⟨g, List.mem_cons_of_mem a hg, hov, hb⟩
      · rintro ⟨g, hg, hov, hb⟩
        rcases List.mem_cons.mp hg with rfl | hg2
        · exact absurd hov hreg
        · exact ⟨g, hg2, hov, hb⟩

/-! ## C9: occlusion handling -/

/-- Running the nearest-hand scan from an already-populated accumulator:
the result is the accumulator or a hand from the remaining list tagged
with its true squared distance, it never exceeds the accumulator's
distance, and it is a lower bound on the distances of the scanned
hands. -/
theorem nearestHandAux_some_spec (pos : Int × Int) (hs : List Hand) :
    ∀ acc : Hand × Int, ∃ a, nearestHandAux pos (some acc) hs = some a ∧
      (a = acc ∨ (a.1 ∈ hs ∧ a.2 = dist2 pos a.1.center)) ∧
      a.2 ≤ acc.2 ∧ (∀ g ∈ hs, a.2 ≤ dist2 pos g.center) := by
  induction hs with
  | nil =>
    intro acc
    exact ⟨acc, rfl, Or.inl rfl, le_refl _, by simp⟩
  | cons h hs ih =>
    intro acc
    by_cases hlt : dist2 pos h.center < acc.2
    · obtain ⟨a, ha, hsrc, hle, hmin⟩ := ih (h, dist2 pos h.center)
      refine ⟨a, ?_, ?_, ?_, ?_⟩
      · simp only [nearestHandAux, if_pos hlt]; exact ha
      · rcases hsrc with rfl | ⟨hmem, hdist⟩
        · exact Or.inr ⟨List.mem_cons_self h hs, rfl⟩
        · exact Or.inr ⟨List.mem_cons_of_mem h hmem, hdist⟩
      · exact le_of_lt (lt_of_le_of_lt hle hlt)
      · intro g hg
        rcases List.mem_cons.mp hg with rfl | hg2
        · exact hle
        · exact hmin g hg2
    · obtain ⟨a, ha, hsrc, hle, hmin⟩ := ih acc
      refine ⟨a, ?_, ?_, hle, ?_⟩
      · simp only [nearestHandAux, if_neg hlt]; exact ha
      · rcases hsrc with rfl | ⟨hmem, hdist⟩
        · exact Or.inl rfl
        · exact Or.inr ⟨List.mem_cons_of_mem h hmem, hdist⟩
      · intro g hg
        rcases List.mem_cons.mp hg with rfl | hg2
        · exact le_trans hle (not_lt.mp hlt)
        · exact hmin g hg2

/-- On a nonempty hand list the scan returns a hand of the list tagged
with its squared distance, minimal among all hands of the list (the
Python loop: `min_dist` starts at infinity, so the first hand always
enters). -/
theorem nearestHand_spec (pos : Int × Int) (h : Hand) (hs : List Hand) :
    ∃ a, nearestHand pos (h :: hs) = some a ∧
      a.1 ∈ h :: hs ∧ a.2 = dist2 pos a.1.center ∧
      ∀ g ∈ h :: hs, a.2 ≤ dist2 pos g.center := by
  obtain ⟨a, ha, hsrc, hle, hmin⟩ := nearestHandAux_some_spec pos hs (h, dist2 pos h.center)
  refine ⟨a, ha, ?_, ?_, ?_⟩
  · rcases hsrc with rfl | ⟨hmem, _⟩
    · exact List.mem_cons_self h hs
    · exact List.mem_cons_of_mem h hmem
  · rcases hsrc with rfl | ⟨_, hdist⟩
    · rfl
    · exact hdist
  · intro g hg
    rcases List.mem_cons.mp hg with rfl | hg2
    · exact hle
    · exact hmin g hg2

/-- C9: `_handle_occlusions`, per bottle.  A bottle with confidence at or
above 0.5 is never touched.  A bottle with confidence below 0.5 is left
unchanged (returning normally) when no hand lies within 100px, and when
some hand does, it is repositioned to the nearest hand's center offset by
half its own size, attached to that hand, and marked
`occlusion_handled`. -/
theorem occlusion_reattach_spec (hands : List Hand) (b : Bottle) :
    (mkRat 1 2 ≤ b.confidence → occStep hands b = b) ∧
    (b.confidence < mkRat 1 2 →
      ((∀ g ∈ hands, 10000 ≤ dist2 b.position g.center) → occStep hands b = b) ∧
      ((∃ g ∈ hands, dist2 b.position g.center < 10000) →
        ∃ g ∈ hands,
          (∀ g2 ∈ hands, dist2 b.position g.center ≤ dist2 b.position g2.center) ∧
          occStep hands b =
            { b with position := (g.center.1 + (b.size.1 / 2 : Nat), g.center.2 + (b.size.2 / 2 : Nat)),
                     attachedToHand := some g.id, occlusionHandled := true })) := by
  constructor
  · intro hconf
    unfold occStep
    rw [if_neg (not_lt.mpr hconf)]
  · intro hconf
    constructor
    · intro hfar
      cases hands with
      | nil => unfold occStep nearestHand nearestHandAux; rw [if_pos hconf]
      | cons h hs =>
        obtain ⟨a, ha, hmem, hdist, _⟩ := nearestHand_spec b.position h hs
        have hge : ¬a.2 < 10000 := not_lt.mpr (hdist ▸ hfar a.1 hmem)
        unfold occStep
        rw [if_pos hconf, ha]
        simp [hge]
    · intro hnear
      obtain ⟨g0, hg0, hg0near⟩ := hnear
      cases hands with
      | nil => exact absurd hg0 (List.not_mem_nil g0)
      | cons h hs =>
        obtain ⟨a, ha, hmem, hdist, hmin⟩ := nearestHand_spec b.position h hs
        have hlt : a.2 < 10000 := lt_of_le_of_lt (hmin g0 hg0) hg0near
        refine ⟨a.1, hmem, ?_, ?_⟩
        · intro g2 hg2
          exact hdist ▸ hmin g2 hg2
        · unfold occStep
          rw [if_pos hconf, ha]
          simp [hlt]

/-- A low-confidence bottle at the origin. -/
def bLow : Bottle :=
  { position := (0, 0), size := (10, 40), confidence := mkRat 1 4, state := "closed",
    id := 3, velocity := (0, 0), stateChanged := false,
    attachedToHand := none, occlusionHandled := false }

/-- A high-confidence bottle at the origin. -/
def bHigh : Bottle :=
  { position := (0, 0), size := (10, 40), confidence := 1, state := "closed",
    id := 4, velocity := (0, 0), stateChanged := false,
    attachedToHand := none, occlusionHandled := false }

/-- A hand 50px from the origin (distance 50 = sqrt(30^2 + 40^2)). -/
def hNear : Hand :=
  { id := 2, center := (30, 40), radius := 5, orientation := 0, isOpen := false,
    confidence := 1, velocity := (0, 0) }

/-- C9 witness: the high-confidence bottle is untouched; the
low-confidence bottle with no hand at all is untouched; the
low-confidence bottle with a hand 50px away is repositioned to the hand's
center offset by half its size. -/
theorem occlusion_reattach_spec_witness :
    occStep [hNear] bHigh = bHigh ∧ occStep [] bLow = bLow ∧
    (∃ g ∈ [hNear],
      (∀ g2 ∈ [hNear], dist2 bLow.position g.center ≤ dist2 bLow.position g2.center) ∧
      occStep [hNear] bLow =
        { bLow with position := (g.center.1 + (bLow.size.1 / 2 : Nat), g.center.2 + (bLow.size.2 / 2 : Nat)),
                    attachedToHand := some g.id, occlusionHandled := true }) :=
  ⟨(occlusion_reattach_spec [hNear] bHigh).1 (by decide),
    ((occlusion_reattach_spec [] bLow).2 (by decide)).1 (by simp),
    ((occlusion_reattach_spec [hNear] bLow).2 (by decide)).2
      ⟨hNear, List.mem_singleton.mpr rfl, by decide⟩⟩

/-! ## C6: the hand-tracking policy, as the spec words it -/

/-- The spec's matching policy, stated with `List.find?`: the FIRST
previous-frame hand whose centroid lies within the 50-pixel Euclidean
gate of the detection (first-match in iteration order, not best-match). -/
def specFirstMatch (prev : List Hand) (c : Int × Int) : Option Hand :=
  prev.find? (fun p => decide (dist2 c p.center < 2500))

/-- The spec's per-detection rule: a matched detection inherits the
matched hand's id and gets its centroid displacement as velocity; an
unmatched detection gets the freshly allocated id (advancing the
allocator) and velocity (0, 0). -/
def specTrackHand (prev : List Hand) (d : HandDet) (k : Nat) : Hand × Nat :=
  match specFirstMatch prev d.center with
  | some p =>
    ({ id := p.id, center := d.center, radius := d.radius,
       orientation := d.orientation, isOpen := d.isOpen, confidence := d.confidence,
       velocity := (d.center.1 - p.center.1, d.center.2 - p.center.2) }, k)
  | none =>
    ({ id := k, center := d.center, radius := d.radius,
       orientation := d.orientation, isOpen := d.isOpen, confidence := d.confidence,
       velocity := (0, 0) }, k + 1)

/-- The spec's tracking pass: each detection handled independently by
`specTrackHand`, threading the id allocator left to right. -/
def specTrackHands (prev : List Hand) (k : Nat) : List HandDet → List Hand × Nat
  | [] => ([], k)
  | d :: ds =>
    let r := specTrackHand prev d k
    let rest := specTrackHands prev r.2 ds
    (r.1 :: rest.1, rest.2)

/-- The source's break-on-first-match loop is `List.find?` with the gate
predicate. -/
theorem matchHand_eq_specFirstMatch (c : Int × Int) (prev : List Hand) :
    matchHand c prev = specFirstMatch prev c := by
  induction prev with
  | nil => rfl
  | cons p ps ih =>
    by_cases hp : dist2 c p.center < 2500
    · simp [matchHand, specFirstMatch, List.find?, hp]
    · simp only [matchHand, if_neg hp, ih]
      simp [specFirstMatch, List.find?, hp]

/-- C6: `HandTracker._track_hands` implements exactly the spec's policy:
first-match within the 50px gate against the previous frame's hands,
inherited id and displacement velocity on a match, fresh id and zero
velocity otherwise. -/
theorem trackHands_eq_spec_policy (prev : List Hand) (k : Nat) (ds : List HandDet) :
    trackHandsAux prev ds k = specTrackHands prev k ds := by
  induction ds generalizing k with
  | nil => rfl
  | cons d ds ih =>
    simp only [trackHandsAux, specTrackHands, specTrackHand,
      matchHand_eq_specFirstMatch d.center prev]
    cases specFirstMatch prev d.center with
    | some p => simp [ih k]
    | none => simp [ih (k + 1)]

/-! ## C7 (amended): hand ids are a monotonic counter and never recur -/

/-- All ids in a hand list lie below `n`. -/
def idsBelow (n : Nat) (hs : List Hand) : Prop := ∀ h ∈ hs, h.id < n

theorem idsBelow_mono {m n : Nat} (hmn : m ≤ n) {hs : List Hand}
    (h : idsBelow m hs) : idsBelow n hs :=
  fun g hg => lt_of_lt_of_le (h g hg) hmn

/-- A matched previous hand belongs to the previous-frame list. -/
theorem matchHand_some_mem {c : Int × Int} {prev : List Hand} {p : Hand}
    (h : matchHand c prev = some p) : p ∈ prev := by
  induction prev with
  | nil => simp [matchHand] at h
  | cons q qs ih =>
    by_cases hq : dist2 c q.center < 2500
    · simp only [matchHand, if_pos hq, Option.some.injEq] at h
      exact h ▸ List.mem_cons_self q qs
    · simp only [matchHand, if_neg hq] at h
      exact List.mem_cons_of_mem q (ih h)

/-- A detection farther than the gate from every previous hand is
unmatched. -/
theorem matchHand_none_of_far {c : Int × Int} {prev : List Hand}
    (h : ∀ p ∈ prev, ¬dist2 c p.center < 2500) : matchHand c prev = none := by
  induction prev with
  | nil => rfl
  | cons q qs ih =>
    simp only [matchHand, if_neg (h q (List.mem_cons_self q qs))]
    exact ih fun p hp => h p (List.mem_cons_of_mem q hp)

/-- The id counter never decreases across a tracking pass. -/
theorem trackHandsAux_counter_le (prev : List Hand) (ds : List HandDet) (k : Nat) :
    k ≤ (trackHandsAux prev ds k).2 := by
  induction ds generalizing k with
  | nil => exact le_refl k
  | cons d ds ih =>
    cases hm : matchHand d.center prev with
    | some p => simpa only [trackHandsAux, hm] using ih k
    | none =>
      simp only [trackHandsAux, hm]
      exact le_trans (Nat.le_succ k) (ih (k + 1))

/-- When every previous id lies below the incoming counter, every output
id lies below the outgoing counter. -/
theorem trackHandsAux_ids_lt (prev : List Hand) (ds : List HandDet) (k : Nat)
    (hp : idsBelow k prev) :
    idsBelow (trackHandsAux prev ds k).2 (trackHandsAux prev ds k).1 := by
  induction ds generalizing k with
  | nil => intro g hg; simp [trackHandsAux] at hg
  | cons d ds ih =>
    cases hm : matchHand d.center prev with
    | some p =>
      intro g hg
      simp only [trackHandsAux, hm] at hg ⊢
      rcases List.mem_cons.mp hg with rfl | hg2
      · exact lt_of_lt_of_le (hp p (matchHand_some_mem hm)) (trackHandsAux_counter_le prev ds k)
      · exact ih k hp g hg2
    | none =>
      intro g hg
      simp only [trackHandsAux, hm] at hg ⊢
      rcases List.mem_cons.mp hg with rfl | hg2
      · exact lt_of_lt_of_le (Nat.lt_succ_self k) (trackHandsAux_counter_le prev ds (k + 1))
      · exact ih (k + 1) (idsBelow_mono (Nat.le_succ k) hp) g hg2

/-- A detection beyond the gate from every previous hand receives an id
at or above the incoming counter (a freshly allocated one). -/
theorem trackHandsAux_fresh_ge (prev : List Hand) :
    ∀ (ds : List HandDet) (k i : Nat) (d : HandDet) (g : Hand),
      ds.get? i = some d → (trackHandsAux prev ds k).1.get? i = some g →
      (∀ p ∈ prev, ¬dist2 d.center p.center < 2500) → k ≤ g.id := by
  intro ds
  induction ds with
  | nil => intro k i d g hd; simp at hd
  | cons d0 ds ih =>
    intro k i d g hd hg hfar
    cases i with
    | zero =>
      have hd0 : d0 = d := by simpa using hd
      have hm : matchHand d0.center prev = none := by
        rw [hd0]; exact matchHand_none_of_far hfar
      simp only [trackHandsAux, hm, List.get?_cons_zero, Option.some.injEq] at hg
      rw [← hg]
    | succ i =>
      have hd2 : ds.get? i = some d := by simpa using hd
      cases hm : matchHand d0.center prev with
      | some p =>
        simp only [trackHandsAux, hm, List.get?_cons_succ] at hg
        exact ih k i d g hd2 hg hfar
      | none =>
        simp only [trackHandsAux, hm, List.get?_cons_succ] at hg
        exact le_trans (Nat.le_succ k) (ih (k + 1) i d g hd2 hg hfar)

/-- Invariant of a fresh tracker's run: every id stored in
`self.prev_hands` lies below `self.next_id`. -/
theorem handStateAt_invariant (frames : List (List HandDet)) :
    ∀ k, idsBelow (handStateAt frames k).nextId (handStateAt frames k).prevHands := by
  intro k
  induction k with
  | zero => intro g hg; simp [handStateAt, initHState] at hg
  | succ k ih =>
    simp only [handStateAt, handTrackStep]
    exact trackHandsAux_ids_lt _ _ _ ih

/-- The counter never decreases across frames. -/
theorem handStateAt_nextId_mono (frames : List (List HandDet)) :
    ∀ {j k : Nat}, j ≤ k →
      (handStateAt frames j).nextId ≤ (handStateAt frames k).nextId := by
  intro j k hjk
  induction hjk with
  | refl => exact le_refl _
  | step _ ih =>
    refine le_trans ih ?_
    simp only [handStateAt, handTrackStep]
    exact trackHandsAux_counter_le _ _ _

/-- Every id output on frame `k` lies below the counter entering frame
`k+1`. -/
theorem handOutputAt_ids_lt (frames : List (List HandDet)) (k : Nat) :
    idsBelow (handStateAt frames (k + 1)).nextId (handOutputAt frames k) := by
  simp only [handStateAt, handOutputAt, handTrackStep]
  exact trackHandsAux_ids_lt _ _ _ (handStateAt_invariant frames k)

/-- C7 (amended): for a fresh `HandTracker`, over any sequence of frames:
a hand of frame `k` whose id is at or above the counter entering frame
`k` (i.e. freshly allocated in frame `k`) has an id distinct from every
id output on any earlier frame — a retired id is never reassigned; and a
detection at distance 50px or more from every previous-frame hand is
allocated exactly such a fresh id.  (The BOTTLE tracker offers no such
guarantee: its ids are CPython object identities, see the accompanying
counterexample.) -/
theorem handIds_fresh_and_unique (frames : List (List HandDet)) :
    (∀ j k (h g : Hand), j < k →
      h ∈ handOutputAt frames j → g ∈ handOutputAt frames k →
      (handStateAt frames k).nextId ≤ g.id → h.id ≠ g.id) ∧
    (∀ k i d g, (frames.getD k []).get? i = some d →
      (handOutputAt frames k).get? i = some g →
      (∀ p ∈ (handStateAt frames k).prevHands, ¬dist2 d.center p.center < 2500) →
      (handStateAt frames k).nextId ≤ g.id) := by
  constructor
  · intro j k h g hjk hh hg hfresh
    have h1 : h.id < (handStateAt frames (j + 1)).nextId :=
      handOutputAt_ids_lt frames j h hh
    have h2 : (handStateAt frames (j + 1)).nextId ≤ (handStateAt frames k).nextId :=
      handStateAt_nextId_mono frames (Nat.succ_le_of_lt hjk)
    exact Nat.ne_of_lt (lt_of_lt_of_le h1 (le_trans h2 hfresh))
  · intro k i d g hd hg hfar
    simp only [handOutputAt, handTrackStep] at hg
    exact trackHandsAux_fresh_ge _ _ _ i d g hd hg hfar

/-- A hand detection at the origin. -/
def dH1 : HandDet :=
  { center := (0, 0), radius := 5, orientation := 0, isOpen := false, confidence := 1 }

/-- A hand detection 500px away in each coordinate. -/
def dH2 : HandDet :=
  { center := (500, 500), radius := 5, orientation := 0, isOpen := false, confidence := 1 }

/-- The tracked output of `dH1` on frame 0 of a fresh tracker. -/
def hO0 : Hand :=
  { id := 0, center := (0, 0), radius := 5, orientation := 0, isOpen := false,
    confidence := 1, velocity := (0, 0) }

/-- The tracked output of `dH2` on frame 1: unmatched (the jump is well
beyond the gate), so it carries the fresh id 1. -/
def hO1 : Hand :=
  { id := 1, center := (500, 500), radius := 5, orientation := 0, isOpen := false,
    confidence := 1, velocity := (0, 0) }

/-- C7 witness: on the two-frame run `[[dH1], [dH2]]` of a fresh hand
tracker, the frame-1 hand jumped 500px, is freshly allocated (id at the
entering counter 1), and its id differs from the frame-0 hand's id. -/
theorem handIds_fresh_and_unique_witness :
    hO0.id ≠ hO1.id ∧ (handStateAt [[dH1], [dH2]] 1).nextId ≤ hO1.id :=
  ⟨(handIds_fresh_and_unique [[dH1], [dH2]]).1 0 1 hO0 hO1 (by decide)
      (by decide) (by decide) (by decide),
    (handIds_fresh_and_unique [[dH1], [dH2]]).2 1 0 dH2 hO1 (by decide)
      (by decide) (by decide)⟩

end MedGuardian
